import Mathlib

/-!
# Vernacular runtime (src/src/runtime.rs) — shallow embedding

The runtime's numbers are IEEE f64; they are modelled as rationals (ℚ).
Every claim under study exercises only exact decimal values such as 3.5 or
3.0, where f64 arithmetic, `fract`, and `floor` agree exactly with ℚ.
Division by zero (f64: ±inf/NaN; ℚ: 0) is touched by no claim. Console
output (println!) is a side effect outside the model and is dropped.

The repository's tokenizer.rs, parser.rs, analyzer.rs and generator.rs are
not under src/; only runtime.rs is. Definitions that depend on them are
either abstracted as arbitrary pure functions of their inputs (the compile
stages, which receive no access to the runtime's environment) or modelled
from the spec (the Display rendering of values), as marked below.
-/

set_option linter.unusedVariables false

namespace Vernacular

/-- f64::trunc — rounds toward zero. -/
def f64trunc (q : ℚ) : ℚ := if 0 ≤ q then (Rat.floor q : ℚ) else (Rat.ceil q : ℚ)

/-- f64::fract — `self - self.trunc()`; zero exactly on integers. -/
def f64fract (q : ℚ) : ℚ := q - f64trunc q

/-- The Value enum (declared in generator.rs, used throughout runtime.rs):
number (f64, modelled as ℚ), text, boolean, null, and class-named object.
The repository also mentions Promise/List/Mapping placeholder variants in
one opcode's arms, but `execute_bytecode`'s StoreVar match (runtime.rs
lines 180-188) handles exactly the five variants below and no claim
involves the placeholders, so they are omitted from the model. -/
inductive Value where
  | number (n : ℚ)
  | string (s : String)
  | boolean (b : Bool)
  | null
  | object (className : String)
deriving DecidableEq

/-- Modelled from the spec: the Display implementation of Value lives in
generator.rs, which is not under src/. Canonical textual forms per the
spec (§6): numbers in their natural decimal representation (here the ℚ
rendering), text unquoted, booleans as truth literals, null as a
"nothing" token, objects by class name. -/
def Value.display : Value → String
  | .number n => toString n
  | .string s => s
  | .boolean b => if b then "true" else "false"
  | .null => "nothing"
  | .object c => c

/-- Modelled from the spec: the derived Debug ({:?}) rendering of a Value
(generator.rs, not under src/); used only inside the CastError message. -/
def Value.debugStr : Value → String
  | .number n => "Number(" ++ toString n ++ ")"
  | .string s => "String(\"" ++ s ++ "\")"
  | .boolean b => "Boolean(" ++ (if b then "true" else "false") ++ ")"
  | .null => "Null"
  | .object c => "Object(\"" ++ c ++ "\")"

/-- The OpCode enum (declared in generator.rs; every variant below is
matched by `execute_bytecode` in runtime.rs lines 172-385). `ret` stands
for the source's `Return` and `show'` for its `Show` (Lean keywords). -/
inductive OpCode where
  | storeVar (name : String)
  | loadVar (name : String)
  | push (value : Value)
  | pop
  | duplicate
  | add
  | subtract
  | multiply
  | divide
  | jump (target : Nat)
  | jumpIfFalse (target : Nat)
  | convertToString
  | call (name : String) (argCount : Nat)
  | ret
  | newObject (className : String)
  | getProperty (name : String)
  | setProperty (name : String)
  | checkType (typeName : String)
  | cast (typeName : String)
  | concat
  | interpolate (partCount : Nat)
  | checkAssignmentType
  | show'
deriving DecidableEq

/-- Association-list lookup, modelling HashMap::get. -/
def lookupA {α : Type} (key : String) : List (String × α) → Option α
  | [] => none
  | (k, v) :: rest => if k = key then some v else lookupA key rest

/-- Association-list insert-or-overwrite, modelling HashMap::insert
(keys stay unique, a prior binding for the key is overwritten). -/
def insertA {α : Type} (key : String) (val : α) : List (String × α) → List (String × α)
  | [] => [(key, val)]
  | (k, v) :: rest => if k = key then (key, val) :: rest else (k, v) :: insertA key val rest

/-- The runtime-type computation inside StoreVar (runtime.rs lines
180-188): a number is "Whole" iff its fractional part is exactly zero,
"Decimal" otherwise; objects report their class name. -/
def valueTypeName : Value → String
  | .number n => if f64fract n = 0 then "Whole" else "Decimal"
  | .string _ => "Text"
  | .boolean _ => "Truth"
  | .null => "Nothing"
  | .object className => className

/-- The runtime-type computation inside CheckAssignmentType (runtime.rs
lines 353-364), which maps every object to the bare Object type. The
source compares analyzer `Type` values there; they are modelled by their
type names, matching how CheckType populates the mapping with names. -/
def assignTypeName : Value → String
  | .number n => if f64fract n = 0 then "Whole" else "Decimal"
  | .string _ => "Text"
  | .boolean _ => "Truth"
  | .null => "Nothing"
  | .object _ => "Object"

/-- `get_next_var_name` (runtime.rs lines 389-396): forward scan of the
remaining instruction slice for the first StoreVar, returning its name. -/
def get_next_var_name : List OpCode → Option String
  | [] => none
  | .storeVar name :: _ => some name
  | _ :: rest => get_next_var_name rest

/-- The VM's per-run execution state: instruction pointer, operand stack
(list head = top of the Rust Vec), plus the Runtime's persistent
`variables` and `variable_types` maps (`vars` models the source field
`variables`, which is a reserved word in Lean). `variable_types` maps names to
type-name strings, matching what CheckType inserts and what StoreVar
compares against. -/
structure VMState where
  ip : Nat
  stack : List Value
  vars : List (String × Value)
  variable_types : List (String × String)
deriving DecidableEq

/-- Outcome of one iteration of the `while ip < bytecode.len()` loop. -/
inductive StepResult where
  | next (s : VMState)
  | brk (s : VMState)
  | fail (msg : String) (s : VMState)
deriving DecidableEq

/-- The `binary_op` helper (runtime.rs lines 399-407). -/
def binary_op (a b : Value) (op : ℚ → ℚ → ℚ) : Except String Value :=
  match a, b with
  | .number x, .number y => .ok (.number (op x y))
  | _, _ => .error "Invalid operands for arithmetic operation"

/-- Shared shape of the four arithmetic opcodes (runtime.rs lines
223-246): pop b, then a, then apply `binary_op`. -/
def arithStep (s : VMState) (op : ℚ → ℚ → ℚ) : StepResult :=
  match s.stack with
  | b :: a :: rest =>
    match binary_op a b op with
    | .ok v => .next { s with stack := v :: rest }
    | .error msg => .fail msg { s with stack := rest }
  | _ :: [] => .fail "Stack underflow" { s with stack := [] }
  | [] => .fail "Stack underflow" s

/-- The concat helper `concat_values` (runtime.rs lines 409-414). -/
def concat_values (a b : Value) : Except String Value :=
  match a, b with
  | .string s1, .string s2 => .ok (.string (s1 ++ s2))
  | _, _ => .error "Can only concatenate strings"

/-- The Interpolate loop (runtime.rs lines 337-342): pop `part_count`
times (a failed pop is silently skipped), prepending each popped value's
textual form to the accumulated result. -/
def interpolateLoop : Nat → List Value → String → List Value × String
  | 0, stack, acc => (stack, acc)
  | n + 1, stack, acc =>
    match stack with
    | [] => interpolateLoop n [] acc
    | v :: rest => interpolateLoop n rest (v.display ++ acc)

/-- One instruction dispatch: the body of the big `match &bytecode[ip]`
(runtime.rs lines 173-383). Jumps assign the instruction pointer here;
the loop's shared `ip += 1` is applied afterwards by `step`. On an error
return, the carried state records the mutations performed before the
error (in particular, a failed StoreVar leaves `variables` untouched). -/
def execInstr (bc : List OpCode) (s : VMState) : OpCode → StepResult
  | .storeVar name =>
    match s.stack with
    | [] => .fail "Stack underflow" s
    | value :: rest =>
      match lookupA name s.variable_types with
      | some declaredType =>
        if value = Value.null then
          .next { s with stack := rest, vars := insertA name value s.vars }
        else if valueTypeName value = declaredType then
          .next { s with stack := rest, vars := insertA name value s.vars }
        else
          .fail ("Type mismatch: cannot assign " ++ valueTypeName value ++
                 " to variable of type " ++ declaredType) { s with stack := rest }
      | none => .next { s with stack := rest, vars := insertA name value s.vars }
  | .loadVar name =>
    match lookupA name s.vars with
    | some value => .next { s with stack := value :: s.stack }
    | none => .fail ("Undefined variable: " ++ name) s
  | .push value => .next { s with stack := value :: s.stack }
  | .pop => .next { s with stack := s.stack.tail }
  | .duplicate =>
    match s.stack with
    | [] => .next s
    | v :: _ => .next { s with stack := v :: s.stack }
  | .add => arithStep s (· + ·)
  | .subtract => arithStep s (· - ·)
  | .multiply => arithStep s (· * ·)
  | .divide => arithStep s (· / ·)
  | .jump target => .next { s with ip := target }
  | .jumpIfFalse target =>
    match s.stack with
    | Value.boolean false :: _ => .next { s with ip := target }
    | _ => .next s
  | .convertToString =>
    match s.stack with
    | [] => .fail "Stack underflow" s
    | v :: rest => .next { s with stack := Value.string v.display :: rest }
  | .call name argCount =>
    let rest := s.stack.drop argCount
    if name = "show" then
      .next { s with stack := Value.null :: rest }
    else
      .fail ("Unknown function: " ++ name) { s with stack := rest }
  | .ret => .brk s
  | .newObject _ => .fail "Object creation not implemented yet" s
  | .getProperty _ => .fail "Property access not implemented yet" s
  | .setProperty _ => .fail "Property setting not implemented yet" s
  | .checkType typeName =>
    match get_next_var_name (bc.drop (s.ip + 1)) with
    | some varName => .next { s with variable_types := insertA varName typeName s.variable_types }
    | none => .next s
  | .cast typeName =>
    match s.stack with
    | [] => .next s
    | value :: rest =>
      match value, typeName with
      | .number n, "Whole" => .next { s with stack := Value.number (Rat.floor n : ℚ) :: rest }
      | .number n, "Decimal" => .next { s with stack := Value.number n :: rest }
      | .string str, "Text" => .next { s with stack := Value.string str :: rest }
      | .boolean b, "Truth" => .next { s with stack := Value.boolean b :: rest }
      | _, _ =>
        .fail ("Cannot cast " ++ value.debugStr ++ " to " ++ typeName) { s with stack := rest }
  | .concat =>
    match s.stack with
    | b :: a :: rest =>
      match concat_values a b with
      | .ok v => .next { s with stack := v :: rest }
      | .error msg => .fail msg { s with stack := rest }
    | _ :: [] => .fail "Stack underflow" { s with stack := [] }
    | [] => .fail "Stack underflow" s
  | .interpolate partCount =>
    match interpolateLoop partCount s.stack "" with
    | (rest, result) => .next { s with stack := Value.string result :: rest }
  | .checkAssignmentType =>
    match s.stack with
    | [] => .fail "Stack underflow" s
    | _ :: rest =>
      match rest with
      | [] => .fail "Stack underflow" { s with stack := [] }
      | newValue :: _ =>
        match get_next_var_name (bc.drop (s.ip + 1)) with
        | some varName =>
          match lookupA varName s.variable_types with
          | some declaredType =>
            if assignTypeName newValue = declaredType then
              .next { s with stack := rest }
            else
              .fail ("Type mismatch: cannot assign " ++ assignTypeName newValue ++
                     " to variable of type " ++ declaredType) { s with stack := rest }
          | none => .next { s with stack := rest }
        | none => .next { s with stack := rest }
  | .show' =>
    match s.stack with
    | [] => .fail "Stack underflow" s
    | _ :: rest => .next { s with stack := rest }

/-- One full loop iteration (runtime.rs lines 172-385): dispatch the
instruction at the current pointer, then apply the shared `ip += 1`
(which runs after every dispatched instruction, jumps included). -/
def step (bc : List OpCode) (s : VMState) : StepResult :=
  match bc[s.ip]? with
  | none => .brk s
  | some op =>
    match execInstr bc s op with
    | .next s' => .next { s' with ip := s'.ip + 1 }
    | .brk s' => .brk s'
    | .fail m s' => .fail m s'

/-- Final outcome of a bounded run of the execution loop. -/
inductive RunResult where
  | finished (s : VMState)
  | failed (msg : String) (s : VMState)
  | fuelOut (s : VMState)
deriving DecidableEq

/-- The `while ip < bytecode.len()` loop, bounded by fuel (the Rust loop
can diverge on backward jumps; no claim needs an unbounded run). -/
def run (bc : List OpCode) : Nat → VMState → RunResult
  | 0, s => .fuelOut s
  | fuel + 1, s =>
    if s.ip < bc.length then
      match step bc s with
      | .next s' => run bc fuel s'
      | .brk s' => .finished s'
      | .fail m s' => .failed m s'
    else .finished s

/-! ## Fragment preprocessing (runtime.rs lines 145-166)

Strings are handled as their character lists, so that every operation is
plain structural recursion. -/

/-- Split on the newline character; yields one more piece than there are
newlines, exactly like Rust's `str::split('\n')`. -/
def splitNL : List Char → List (List Char)
  | [] => [[]]
  | c :: cs =>
    match splitNL cs with
    | [] => [[]]
    | piece :: rest => if c = '\n' then [] :: piece :: rest else (c :: piece) :: rest

/-- Rust `str::lines`: the empty string has no lines, and a final
trailing newline yields no extra empty line. (Rust additionally strips a
CR before each newline; here that CR survives into the piece and is
removed by `trim_end` below — observationally equal, because
`preprocess_input` trims every line before any other use.) -/
def rust_lines (cs : List Char) : List (List Char) :=
  if cs.isEmpty then []
  else
    let l := splitNL cs
    if l.getLast? = some [] then l.dropLast else l

/-- Rust `str::trim_end`, over the ASCII whitespace characters covered by
`Char.isWhitespace` (space, tab, CR, LF); no claim exercises exotic
Unicode whitespace. -/
def trim_end (cs : List Char) : List Char :=
  (cs.reverse.dropWhile Char.isWhitespace).reverse

/-- The line-joining loop of `preprocess_input` (runtime.rs lines
149-163): each line is trimmed of trailing whitespace; if the trimmed
line ends in a backslash, the backslash is replaced by a single space;
otherwise the trimmed line is emitted, followed by a newline only when
more lines remain. -/
def preprocess_lines : List (List Char) → List Char
  | [] => []
  | line :: rest =>
    let trimmed := trim_end line
    if trimmed.getLast? = some '\\' then
      trimmed.dropLast ++ [' '] ++ preprocess_lines rest
    else
      trimmed ++ (if rest.isEmpty then [] else ['\n']) ++ preprocess_lines rest

/-- `preprocess_input` (runtime.rs lines 145-166). -/
def preprocess_input (input : String) : String :=
  ⟨preprocess_lines (rust_lines input.data)⟩

/-! ## The fragment pipeline (runtime.rs `process_input`, lines 89-143)

The Tokenizer, Parser, Analyzer and BytecodeGenerator live outside src/;
`process_input` shows that each receives only the fragment's data (and,
for the Analyzer, a freshly built copy of the declared types), never the
runtime's environment, so they are abstracted as arbitrary pure
functions of exactly those inputs. -/

/-- The analyzer's Type lattice, as far as `process_input`'s seeding
concerns it (runtime.rs lines 104-118). -/
inductive AType where
  | whole
  | decimal
  | text
  | truth
  | nothing
  | any
deriving DecidableEq

/-- The declared-type-name dispatch of the analyzer seeding (runtime.rs
lines 106-113); unknown names fall back to Any. -/
def atype_of_name (s : String) : AType :=
  if s = "Whole" then .whole
  else if s = "Decimal" then .decimal
  else if s = "Text" then .text
  else if s = "Truth" then .truth
  else if s = "Nothing" then .nothing
  else .any

/-- The persistent session environment: the Runtime's `variables` and
`variable_types` fields. -/
structure Env where
  vars : List (String × Value)
  variable_types : List (String × String)
deriving DecidableEq

/-- The analyzer seeding loop (runtime.rs lines 103-118): every existing
variable is given its declared type, or Any when none is declared. -/
def seed_types (env : Env) : List (String × AType) :=
  env.vars.map fun p =>
    (p.1, match lookupA p.1 env.variable_types with
          | some t => atype_of_name t
          | none => AType.any)

/-- Overall outcome of `process_input` / `execute_bytecode`. -/
inductive ExecOutcome where
  | finished
  | failed (msg : String)
  | fuelOut
deriving DecidableEq

/-- `execute_bytecode` (runtime.rs lines 168-387): fresh stack and
pointer 0 against the persistent environment; the environment mutations
performed before any error are kept, mirroring the in-place updates of
`self.variables` / `self.variable_types`. -/
def execute_bytecode (fuel : Nat) (bc : List OpCode) (env : Env) : ExecOutcome × Env :=
  match run bc fuel ⟨0, [], env.vars, env.variable_types⟩ with
  | .finished s => (.finished, ⟨s.vars, s.variable_types⟩)
  | .failed m s => (.failed m, ⟨s.vars, s.variable_types⟩)
  | .fuelOut s => (.fuelOut, ⟨s.vars, s.variable_types⟩)

/-- The compilation stages of `process_input` (runtime.rs lines 89-124):
preprocess, tokenize, parse, analyze against the seeded types, and
generate bytecode; the first error aborts the fragment. -/
def compile_fragment {Tok Ast : Type}
    (tokenize : String → Except String (List Tok))
    (parse : List Tok → Except String Ast)
    (analyze : List (String × AType) → Ast → Except String Unit)
    (generate : Ast → Except String (List OpCode))
    (env : Env) (input : String) : Except String (List OpCode) := do
  let processed := preprocess_input input
  let tokens ← tokenize processed
  let ast ← parse tokens
  let _ ← analyze (seed_types env) ast
  generate ast

/-- `process_input` (runtime.rs lines 89-143): run the compilation
stages, then — only if all of them succeed — execute the bytecode
against the persistent environment. The debug printing between
generation and execution is console output, outside the model. -/
def process_input {Tok Ast : Type}
    (tokenize : String → Except String (List Tok))
    (parse : List Tok → Except String Ast)
    (analyze : List (String × AType) → Ast → Except String Unit)
    (generate : Ast → Except String (List OpCode))
    (fuel : Nat) (env : Env) (input : String) : ExecOutcome × Env :=
  match compile_fragment tokenize parse analyze generate env input with
  | .error e => (.failed e, env)
  | .ok bytecode => execute_bytecode fuel bytecode env

end Vernacular

namespace Vernacular

/-! ## Claims -/

/-- C1 (counterexample): in the bytecode `[Jump 1, Push 1, Push 2]`, the
executed Jump(1) does not make index 1 the next dispatched instruction:
the loop's shared increment moves the pointer to 2, and a full run shows
the instruction at the jump target (Push 1) is skipped — the final stack
is `[2]`, not `[1, 2]`. -/
theorem jump_skips_target_cex :
    step [OpCode.jump 1, OpCode.push (Value.number 1), OpCode.push (Value.number 2)]
      ⟨0, [], [], []⟩ = StepResult.next ⟨2, [], [], []⟩ ∧ (2 : Nat) ≠ 1 ∧
    run [OpCode.jump 1, OpCode.push (Value.number 1), OpCode.push (Value.number 2)] 10
      ⟨0, [], [], []⟩ = RunResult.finished ⟨3, [Value.number 2], [], []⟩ := by
  refine ⟨by decide, by decide, by decide⟩

/-- C1 (amended): the execution loop increments the instruction pointer
by one after every dispatched instruction, jumps included: executing an
unconditional Jump(target) sets the pointer to the target and the shared
increment then applies, so the next instruction dispatched is the one at
index target + 1, with stack and environment unchanged. -/
theorem jump_dispatches_target_succ (bc : List OpCode) (s : VMState) (target : Nat)
    (h : bc[s.ip]? = some (OpCode.jump target)) :
    step bc s = StepResult.next { s with ip := target + 1 } := by
  simp [step, h, execInstr]

/-- Witness for the amended C1 theorem at a concrete input. -/
theorem jump_dispatches_target_succ_witness :
    step [OpCode.jump 5] ⟨0, [], [], []⟩ = StepResult.next ⟨6, [], [], []⟩ :=
  jump_dispatches_target_succ [OpCode.jump 5] ⟨0, [], [], []⟩ 5 rfl

/-- C2 (counterexample): with boolean false on top of the stack, the
conditional jump at index 1 with stored target 0 leaves the next
dispatched index at 1 (the target plus the loop's shared increment), not
at the stored target 0 — so the instruction "jumps to the stored
absolute target" is false as stated. -/
theorem jumpIfFalse_target_cex :
    step [OpCode.push (Value.boolean false), OpCode.jumpIfFalse 0, OpCode.push (Value.number 5)]
      ⟨1, [Value.boolean false], [], []⟩ =
      StepResult.next ⟨1, [Value.boolean false], [], []⟩ ∧ (1 : Nat) ≠ 0 := by
  refine ⟨by decide, by decide⟩

/-- C2 (amended): the conditional jump inspects the top of the stack
without removing it; if the top is boolean false the pointer is set to
the stored target and the loop's shared increment then applies, so the
next instruction dispatched is at target + 1; any other top (or an empty
stack) falls through to the next instruction; in either branch the
operand stack — the condition value included — and the environment are
unchanged. -/
theorem jumpIfFalse_peeks_and_branches (bc : List OpCode) (s : VMState) (target : Nat)
    (h : bc[s.ip]? = some (OpCode.jumpIfFalse target)) :
    step bc s = StepResult.next { s with ip :=
      (if s.stack.head? = some (Value.boolean false) then target + 1 else s.ip + 1) } := by
  match hs : s.stack with
  | [] => simp [step, h, execInstr, hs]
  | v :: rest =>
    match v with
    | .boolean true => simp [step, h, execInstr, hs]
    | .boolean false => simp [step, h, execInstr, hs]
    | .number n => simp [step, h, execInstr, hs]
    | .string str => simp [step, h, execInstr, hs]
    | .null => simp [step, h, execInstr, hs]
    | .object c => simp [step, h, execInstr, hs]

/-- Witness for the amended C2 theorem at concrete inputs: a false top
jumps to target + 1 keeping the condition on the stack; a true top falls
through keeping the condition on the stack. -/
theorem jumpIfFalse_peeks_and_branches_witness :
    step [OpCode.jumpIfFalse 7] ⟨0, [Value.boolean false], [], []⟩ =
      StepResult.next ⟨8, [Value.boolean false], [], []⟩ ∧
    step [OpCode.jumpIfFalse 7] ⟨0, [Value.boolean true], [], []⟩ =
      StepResult.next ⟨1, [Value.boolean true], [], []⟩ :=
  ⟨(jumpIfFalse_peeks_and_branches [OpCode.jumpIfFalse 7]
      ⟨0, [Value.boolean false], [], []⟩ 7 rfl).trans (by decide),
   (jumpIfFalse_peeks_and_branches [OpCode.jumpIfFalse 7]
      ⟨0, [Value.boolean true], [], []⟩ 7 rfl).trans (by decide)⟩

/-- Helper: the exact effect of a StoreVar step on a nonempty stack
(shared by the store and the store-then-load claims). -/
theorem storeVar_step_eq (bc : List OpCode) (s : VMState) (name : String)
    (v : Value) (rest : List Value)
    (hop : bc[s.ip]? = some (OpCode.storeVar name)) (hst : s.stack = v :: rest) :
    step bc s =
      (match lookupA name s.variable_types with
       | some declaredType =>
         if v = Value.null ∨ valueTypeName v = declaredType then
           StepResult.next { s with ip := s.ip + 1, stack := rest, vars := insertA name v s.vars }
         else
           StepResult.fail ("Type mismatch: cannot assign " ++ valueTypeName v ++
             " to variable of type " ++ declaredType) { s with stack := rest }
       | none => StepResult.next { s with ip := s.ip + 1, stack := rest, vars := insertA name v s.vars }) := by
  rcases hl : lookupA name s.variable_types with _ | d
  · simp [step, hop, execInstr, hst, hl]
  · by_cases hv : v = Value.null
    · simp [step, hop, execInstr, hst, hl, hv]
    · by_cases ht : valueTypeName v = d
      · simp [step, hop, execInstr, hst, hl, hv, ht]
      · simp [step, hop, execInstr, hst, hl, hv, ht]

/-- C3: a store pops exactly one value; with a declared type and a
non-null value, the value's runtime type (a number is Whole iff its
fractional part is exactly zero, Decimal otherwise) is compared to the
declared type: on mismatch execution fails with a TypeMismatch error
naming both types and the environment binding is not written (the
carried failure state keeps `vars` untouched); on success, with no
declared type, or with a null value, the value is written over any prior
binding. -/
theorem storeVar_type_checks (bc : List OpCode) (s : VMState) (name : String)
    (v : Value) (rest : List Value)
    (hop : bc[s.ip]? = some (OpCode.storeVar name)) (hst : s.stack = v :: rest) :
    step bc s =
      (match lookupA name s.variable_types with
       | some declaredType =>
         if v = Value.null ∨ valueTypeName v = declaredType then
           StepResult.next { s with ip := s.ip + 1, stack := rest, vars := insertA name v s.vars }
         else
           StepResult.fail ("Type mismatch: cannot assign " ++ valueTypeName v ++
             " to variable of type " ++ declaredType) { s with stack := rest }
       | none => StepResult.next { s with ip := s.ip + 1, stack := rest, vars := insertA name v s.vars }) :=
  storeVar_step_eq bc s name v rest hop hst

/-- Witness for C3 at the spec's own instances: storing 3.5 into a
Whole-declared variable fails with TypeMismatch leaving the environment
empty, and storing 3.0 succeeds and writes the binding. -/
theorem storeVar_type_checks_witness :
    step [OpCode.storeVar "x"] ⟨0, [Value.number (mkRat 7 2)], [], [("x", "Whole")]⟩ =
      StepResult.fail "Type mismatch: cannot assign Decimal to variable of type Whole"
        ⟨0, [], [], [("x", "Whole")]⟩ ∧
    step [OpCode.storeVar "x"] ⟨0, [Value.number 3], [], [("x", "Whole")]⟩ =
      StepResult.next ⟨1, [], [("x", Value.number 3)], [("x", "Whole")]⟩ :=
  ⟨(storeVar_type_checks [OpCode.storeVar "x"]
      ⟨0, [Value.number (mkRat 7 2)], [], [("x", "Whole")]⟩ "x"
      (Value.number (mkRat 7 2)) [] rfl rfl).trans (by with_unfolding_all rfl),
   (storeVar_type_checks [OpCode.storeVar "x"]
      ⟨0, [Value.number 3], [], [("x", "Whole")]⟩ "x"
      (Value.number 3) [] rfl rfl).trans (by with_unfolding_all rfl)⟩

/-- Helper: looking up a key right after inserting it yields the
inserted value. -/
theorem lookupA_insertA_self {α : Type} (k : String) (v : α) (l : List (String × α)) :
    lookupA k (insertA k v l) = some v := by
  induction l with
  | nil => simp [insertA, lookupA]
  | cons p rest ih =>
    obtain ⟨k', v'⟩ := p
    by_cases h : k' = k
    · simp [insertA, lookupA, h]
    · simp [insertA, lookupA, h, ih]

/-- Helper: a successful StoreVar leaves `vars` as the insert-overwrite
of the stored value. -/
theorem storeVar_next_vars (bc : List OpCode) (s : VMState) (name : String)
    (v : Value) (rest : List Value) (s₁ : VMState)
    (hop : bc[s.ip]? = some (OpCode.storeVar name)) (hst : s.stack = v :: rest)
    (hstep : step bc s = StepResult.next s₁) :
    s₁.vars = insertA name v s.vars := by
  rw [storeVar_step_eq bc s name v rest hop hst] at hstep
  split at hstep
  · split at hstep
    · cases hstep; rfl
    · cases hstep
  · cases hstep; rfl

/-- C4: loading a never-stored name fails with UndefinedVariable, and
any value accepted by a store (a store step that succeeds) is returned
unchanged by a subsequent load of the same name against the resulting
environment (store-then-load round-trips the exact value, pushed as a
copy on top of the stack). -/
theorem load_undefined_or_roundtrip :
    (∀ (bc : List OpCode) (s : VMState) (name : String),
      bc[s.ip]? = some (OpCode.loadVar name) → lookupA name s.vars = none →
      step bc s = StepResult.fail ("Undefined variable: " ++ name) s)
    ∧ (∀ (bc : List OpCode) (s : VMState) (name : String) (v : Value)
        (rest : List Value) (s₁ : VMState) (bc₂ : List OpCode) (s₂ : VMState),
      bc[s.ip]? = some (OpCode.storeVar name) → s.stack = v :: rest →
      step bc s = StepResult.next s₁ →
      bc₂[s₂.ip]? = some (OpCode.loadVar name) → s₂.vars = s₁.vars →
      step bc₂ s₂ = StepResult.next { s₂ with ip := s₂.ip + 1, stack := v :: s₂.stack }) := by
  constructor
  · intro bc s name hop hl
    simp [step, hop, execInstr, hl]
  · intro bc s name v rest s₁ bc₂ s₂ hop hst hstep hop₂ hvars
    have h₁ : s₁.vars = insertA name v s.vars :=
      storeVar_next_vars bc s name v rest s₁ hop hst hstep
    have h₂ : lookupA name s₂.vars = some v := by
      rw [hvars, h₁]; exact lookupA_insertA_self name v s.vars
    simp [step, hop₂, execInstr, h₂]

/-- Witness for C4 at concrete inputs: loading "y" from an empty
environment fails with UndefinedVariable, and storing 3 into "x" then
loading "x" pushes exactly 3 back. -/
theorem load_undefined_or_roundtrip_witness :
    step [OpCode.loadVar "y"] ⟨0, [], [], []⟩ =
      StepResult.fail "Undefined variable: y" ⟨0, [], [], []⟩ ∧
    step [OpCode.storeVar "x", OpCode.loadVar "x"]
      ⟨1, [], [("x", Value.number 3)], []⟩ =
      StepResult.next ⟨2, [Value.number 3], [("x", Value.number 3)], []⟩ :=
  ⟨load_undefined_or_roundtrip.1 [OpCode.loadVar "y"] ⟨0, [], [], []⟩ "y" rfl rfl,
   (load_undefined_or_roundtrip.2 [OpCode.storeVar "x", OpCode.loadVar "x"]
      ⟨0, [Value.number 3], [], []⟩ "x" (Value.number 3) []
      ⟨1, [], [("x", Value.number 3)], []⟩ [OpCode.storeVar "x", OpCode.loadVar "x"]
      ⟨1, [], [("x", Value.number 3)], []⟩ rfl rfl (by decide) rfl rfl).trans (by decide)⟩

/-- The legal (identity-shaped) cast combinations of the Cast opcode
(runtime.rs lines 311-324): exactly number→Whole, number→Decimal,
text→Text and boolean→Truth. -/
def castLegal : Value → String → Bool
  | .number _, "Whole" => true
  | .number _, "Decimal" => true
  | .string _, "Text" => true
  | .boolean _, "Truth" => true
  | _, _ => false

/-- C5: the cast instruction pops one value; casting a number to Whole
pushes its floor, casting a number to Decimal, a text to Text, or a
boolean to Truth pushes the value unchanged, and every other value/type
combination fails with the CastError message. -/
theorem cast_identity_shaped (bc : List OpCode) (s : VMState) (tyName : String)
    (v : Value) (rest : List Value)
    (hop : bc[s.ip]? = some (OpCode.cast tyName)) (hst : s.stack = v :: rest) :
    (∀ n, v = Value.number n → tyName = "Whole" →
      step bc s = StepResult.next { s with ip := s.ip + 1, stack := Value.number (Rat.floor n : ℚ) :: rest })
    ∧ (∀ n, v = Value.number n → tyName = "Decimal" →
      step bc s = StepResult.next { s with ip := s.ip + 1, stack := v :: rest })
    ∧ (∀ str, v = Value.string str → tyName = "Text" →
      step bc s = StepResult.next { s with ip := s.ip + 1, stack := v :: rest })
    ∧ (∀ b, v = Value.boolean b → tyName = "Truth" →
      step bc s = StepResult.next { s with ip := s.ip + 1, stack := v :: rest })
    ∧ (castLegal v tyName = false →
      step bc s = StepResult.fail ("Cannot cast " ++ v.debugStr ++ " to " ++ tyName)
        { s with stack := rest }) := by
  refine ⟨?_, ?_, ?_, ?_, ?_⟩
  · rintro n rfl rfl; simp [step, hop, execInstr, hst]
  · rintro n rfl rfl; simp [step, hop, execInstr, hst]
  · rintro str rfl rfl; simp [step, hop, execInstr, hst]
  · rintro b rfl rfl; simp [step, hop, execInstr, hst]
  · intro hleg
    cases v with
    | number n =>
      have h1 : tyName ≠ "Whole" := by rintro rfl; simp [castLegal] at hleg
      have h2 : tyName ≠ "Decimal" := by rintro rfl; simp [castLegal] at hleg
      simp [step, hop, execInstr, hst, h1, h2]
    | string str =>
      have h1 : tyName ≠ "Text" := by rintro rfl; simp [castLegal] at hleg
      simp [step, hop, execInstr, hst, h1]
    | boolean b =>
      have h1 : tyName ≠ "Truth" := by rintro rfl; simp [castLegal] at hleg
      simp [step, hop, execInstr, hst, h1]
    | null => simp [step, hop, execInstr, hst]
    | object c => simp [step, hop, execInstr, hst]

/-- Witness for C5 at concrete inputs: casting 3.5 to Whole pushes 3
(its floor), and casting a boolean to Whole fails with the CastError
message. -/
theorem cast_identity_shaped_witness :
    step [OpCode.cast "Whole"] ⟨0, [Value.number (mkRat 7 2)], [], []⟩ =
      StepResult.next ⟨1, [Value.number 3], [], []⟩ ∧
    step [OpCode.cast "Whole"] ⟨0, [Value.boolean true], [], []⟩ =
      StepResult.fail "Cannot cast Boolean(true) to Whole" ⟨0, [], [], []⟩ :=
  ⟨((cast_identity_shaped [OpCode.cast "Whole"] ⟨0, [Value.number (mkRat 7 2)], [], []⟩
      "Whole" (Value.number (mkRat 7 2)) [] rfl rfl).1 (mkRat 7 2) rfl rfl).trans (by decide),
   ((cast_identity_shaped [OpCode.cast "Whole"] ⟨0, [Value.boolean true], [], []⟩
      "Whole" (Value.boolean true) [] rfl rfl).2.2.2.2 rfl).trans (by decide)⟩

/-- Concatenation of a list of strings in order. -/
def strConcat : List String → String
  | [] => ""
  | s :: rest => s ++ strConcat rest

/-- Helper: `strConcat` distributes over list append. -/
theorem strConcat_append (l₁ l₂ : List String) :
    strConcat (l₁ ++ l₂) = strConcat l₁ ++ strConcat l₂ := by
  induction l₁ with
  | nil => simp [strConcat]
  | cons a l ih => simp [strConcat, ih, String.append_assoc]

/-- Helper: the Interpolate pop loop, run on a stack holding the parts
above `rest`, removes exactly the parts and accumulates their textual
forms in push order (reversing the pop order). -/
theorem interpolateLoop_spec (parts rest : List Value) (acc : String) :
    interpolateLoop parts.length (parts ++ rest) acc =
      (rest, strConcat ((parts.reverse).map Value.display) ++ acc) := by
  induction parts generalizing acc with
  | nil => simp [interpolateLoop, strConcat]
  | cons p ps ih =>
    simp only [List.length_cons, List.cons_append, interpolateLoop, ih,
      List.reverse_cons, List.map_append, strConcat_append]
    simp [strConcat, String.append_assoc]

/-- C6: with at least N values on the stack, the N-part interpolation
instruction pops exactly N values and pushes one text value equal to the
concatenation of their canonical textual forms in the order the values
were pushed (source left-to-right order, the reverse of pop order). -/
theorem interpolate_concats_push_order (bc : List OpCode) (s : VMState) (n : Nat)
    (parts rest : List Value)
    (hop : bc[s.ip]? = some (OpCode.interpolate n)) (hst : s.stack = parts ++ rest)
    (hlen : parts.length = n) :
    step bc s = StepResult.next { s with ip := s.ip + 1, stack := Value.string (strConcat ((parts.reverse).map Value.display)) :: rest } := by
  subst hlen
  simp [step, hop, execInstr, hst, interpolateLoop_spec parts rest ""]

/-- Witness for C6 at a concrete input: parts pushed in the order
"a", "b", "c" (so "c" is on top) interpolate to "abc", leaving the value
below them untouched. -/
theorem interpolate_concats_push_order_witness :
    step [OpCode.interpolate 3]
      ⟨0, [Value.string "c", Value.string "b", Value.string "a", Value.null], [], []⟩ =
      StepResult.next ⟨1, [Value.string "abc", Value.null], [], []⟩ :=
  (interpolate_concats_push_order [OpCode.interpolate 3]
      ⟨0, [Value.string "c", Value.string "b", Value.string "a", Value.null], [], []⟩ 3
      [Value.string "c", Value.string "b", Value.string "a"] [Value.null]
      rfl rfl rfl).trans (by decide)

/-- C7: the type-declaration marker leaves the operand stack (and the
variable values) unchanged and, during its own execution — hence before
any later store runs — records the declared type in the persistent
variable-type mapping against the target of the nearest following store
instruction; when no store follows, nothing is recorded. The second
conjunct pins down "nearest": the name returned by the forward scan
belongs to the first StoreVar of the remaining sequence, every earlier
position holding a non-store instruction. -/
theorem checkType_records_nearest_store (bc : List OpCode) (s : VMState) (tyName : String)
    (hop : bc[s.ip]? = some (OpCode.checkType tyName)) :
    (step bc s = StepResult.next { s with ip := s.ip + 1, variable_types := (match get_next_var_name (bc.drop (s.ip + 1)) with | some varName => insertA varName tyName s.variable_types | none => s.variable_types) })
    ∧ (∀ (ops : List OpCode) (name : String), get_next_var_name ops = some name →
        ∃ i : Nat, ops[i]? = some (OpCode.storeVar name) ∧
          ∀ j : Nat, j < i → ∀ nm, ops[j]? ≠ some (OpCode.storeVar nm)) := by
  constructor
  · rcases hg : get_next_var_name (bc.drop (s.ip + 1)) with _ | nm
    · simp [step, hop, execInstr, hg]
    · simp [step, hop, execInstr, hg]
  · intro ops
    induction ops with
    | nil => intro name h; simp [get_next_var_name] at h
    | cons op rest ih =>
      intro name h
      by_cases hsv : ∃ nm', op = OpCode.storeVar nm'
      · obtain ⟨nm', rfl⟩ := hsv
        have h' : nm' = name := by
          have : some nm' = some name := h
          exact Option.some.inj this
        subst h'
        exact ⟨0, by simp, fun j hj nm => absurd hj (Nat.not_lt_zero j)⟩
      · have hred : get_next_var_name (op :: rest) = get_next_var_name rest := by
          cases op
          case storeVar nm' => exact absurd ⟨nm', rfl⟩ hsv
          all_goals rfl
        rw [hred] at h
        obtain ⟨i, hi, hmin⟩ := ih name h
        refine ⟨i + 1, by simpa using hi, ?_⟩
        intro j hj nm
        match j with
        | 0 =>
          intro hc
          exact hsv ⟨nm, Option.some.inj (by simpa using hc)⟩
        | j' + 1 => simpa using hmin j' (by omega) nm

/-- Witness for C7 at a concrete input: a CheckType "Whole" followed by
a Push and a StoreVar "y" records ("y", "Whole") into the type mapping
while leaving the stack untouched. -/
theorem checkType_records_nearest_store_witness :
    step [OpCode.checkType "Whole", OpCode.push Value.null, OpCode.storeVar "y"]
      ⟨0, [Value.number 9], [], []⟩ =
      StepResult.next ⟨1, [Value.number 9], [], [("y", "Whole")]⟩ :=
  ((checkType_records_nearest_store
      [OpCode.checkType "Whole", OpCode.push Value.null, OpCode.storeVar "y"]
      ⟨0, [Value.number 9], [], []⟩ "Whole" rfl).1).trans (by decide)

/-- C8's transformation exactly as the claim states it: the
trailing-whitespace-trimmed form is used only to detect and strip the
backslash, while every other physical line is passed through as-is,
followed by a newline except for the final line. -/
def claim_preprocess_lines : List (List Char) → List Char
  | [] => []
  | line :: rest =>
    let trimmed := trim_end line
    if trimmed.getLast? = some '\\' then
      trimmed.dropLast ++ [' '] ++ claim_preprocess_lines rest
    else
      line ++ (if rest.isEmpty then [] else ['\n']) ++ claim_preprocess_lines rest

/-- C8's transformation as claimed, over whole strings. -/
def claim_preprocess (input : String) : String :=
  ⟨claim_preprocess_lines (rust_lines input.data)⟩

/-- C8 (counterexample): on the input "a " (one line with a trailing
space and no backslash) the implementation emits "a" — it trims the
trailing whitespace of every line — while the claimed transformation
leaves the non-continuation line untouched and emits "a ". -/
theorem preprocess_trims_lines_cex :
    preprocess_input "a " = "a" ∧ claim_preprocess "a " = "a " ∧
    preprocess_input "a " ≠ claim_preprocess "a " := by
  refine ⟨by decide, by decide, by decide⟩

/-- Marks the final element of a list. -/
def mark_last {α : Type} : List α → List (α × Bool)
  | [] => []
  | [a] => [(a, true)]
  | a :: b :: rest => (a, false) :: mark_last (b :: rest)

/-- The amended C8 transformation, from its words: every physical line
is first trimmed of trailing whitespace; a trimmed line ending in a
backslash has the backslash replaced by a single space (joining it to
the following line when one exists); every other trimmed line is
followed by a newline, except the final line, which gets none. -/
def amended_preprocess (input : String) : String :=
  ⟨((mark_last (rust_lines input.data)).map fun p =>
      let t := trim_end p.1
      if t.getLast? = some '\\' then t.dropLast ++ [' ']
      else if p.2 then t else t ++ ['\n']).flatten⟩

/-- Helper: the implementation's line-joining loop agrees with the
amended per-line description on every line list. -/
theorem preprocess_lines_eq_amended (ls : List (List Char)) :
    preprocess_lines ls =
      ((mark_last ls).map fun p =>
        let t := trim_end p.1
        if t.getLast? = some '\\' then t.dropLast ++ [' ']
        else if p.2 then t else t ++ ['\n']).flatten := by
  induction ls with
  | nil => rfl
  | cons line rest ih =>
    cases rest with
    | nil =>
      by_cases hb : (trim_end line).getLast? = some '\\'
      · simp [preprocess_lines, mark_last, hb]
      · simp [preprocess_lines, mark_last, hb]
    | cons l2 rest2 =>
      have hml : mark_last (line :: l2 :: rest2) = (line, false) :: mark_last (l2 :: rest2) := rfl
      rw [hml, List.map_cons, List.flatten_cons, ← ih]
      by_cases hb : (trim_end line).getLast? = some '\\'
      · simp [preprocess_lines, hb]
      · simp [preprocess_lines, hb]

/-- C8 (amended): fragment preprocessing trims every physical line of
trailing whitespace; a trimmed line ending in a backslash has the
backslash stripped and is joined to what follows by a single space
instead of a newline, and every other trimmed line is followed by a
newline except the final line, which has no trailing newline. -/
theorem preprocess_input_amended (input : String) :
    preprocess_input input = amended_preprocess input := by
  unfold preprocess_input amended_preprocess
  rw [preprocess_lines_eq_amended]

/-- C9: whenever any compilation stage of a fragment (tokenize, parse,
analyze, or bytecode generation) fails — for arbitrary stage functions,
which by their interfaces receive only the fragment data and a copy of
the seeded types, never the environment — `process_input` reports that
error and returns the persistent environment exactly as it was: only
the execution stage can mutate it. -/
theorem compile_failure_preserves_env {Tok Ast : Type}
    (tokenize : String → Except String (List Tok))
    (parse : List Tok → Except String Ast)
    (analyze : List (String × AType) → Ast → Except String Unit)
    (generate : Ast → Except String (List OpCode))
    (fuel : Nat) (env : Env) (input : String) (e : String)
    (h : compile_fragment tokenize parse analyze generate env input = .error e) :
    process_input tokenize parse analyze generate fuel env input =
      (ExecOutcome.failed e, env) := by
  simp [process_input, h]

/-- Witness for C9 at concrete stage functions: a tokenizer failing with
"LexError" makes the fragment fail while the nonempty environment is
returned untouched. -/
theorem compile_failure_preserves_env_witness :
    compile_fragment (fun _ => (Except.error "LexError" : Except String (List Unit)))
      (fun _ => (Except.ok () : Except String Unit)) (fun _ _ => Except.ok ())
      (fun _ => Except.ok []) ⟨[("x", Value.number 1)], []⟩ "x" =
      Except.error "LexError" ∧
    process_input (fun _ => (Except.error "LexError" : Except String (List Unit)))
      (fun _ => (Except.ok () : Except String Unit)) (fun _ _ => Except.ok ())
      (fun _ => Except.ok []) 5 ⟨[("x", Value.number 1)], []⟩ "x" =
      (ExecOutcome.failed "LexError", ⟨[("x", Value.number 1)], []⟩) :=
  ⟨rfl,
   compile_failure_preserves_env (fun _ => (Except.error "LexError" : Except String (List Unit)))
     (fun _ => (Except.ok () : Except String Unit)) (fun _ _ => Except.ok ())
     (fun _ => Except.ok []) 5 ⟨[("x", Value.number 1)], []⟩ "x" "LexError" rfl⟩

/-- C10: with an empty operand stack, the cast instruction succeeds
silently as a no-op — no StackUnderflow and no CastError — leaving the
stack and the environment unchanged and continuing at the next
instruction, while arithmetic, store, concat, and display all fail with
the stack-underflow error on the same empty stack. -/
theorem cast_empty_stack_noop (bc : List OpCode) (s : VMState) (h : s.stack = []) :
    (∀ tyName, bc[s.ip]? = some (OpCode.cast tyName) →
      step bc s = StepResult.next { s with ip := s.ip + 1 })
    ∧ (∀ name, bc[s.ip]? = some (OpCode.storeVar name) →
      step bc s = StepResult.fail "Stack underflow" s)
    ∧ (bc[s.ip]? = some OpCode.add → step bc s = StepResult.fail "Stack underflow" s)
    ∧ (bc[s.ip]? = some OpCode.subtract → step bc s = StepResult.fail "Stack underflow" s)
    ∧ (bc[s.ip]? = some OpCode.multiply → step bc s = StepResult.fail "Stack underflow" s)
    ∧ (bc[s.ip]? = some OpCode.divide → step bc s = StepResult.fail "Stack underflow" s)
    ∧ (bc[s.ip]? = some OpCode.concat → step bc s = StepResult.fail "Stack underflow" s)
    ∧ (bc[s.ip]? = some OpCode.show' → step bc s = StepResult.fail "Stack underflow" s) := by
  refine ⟨?_, ?_, ?_, ?_, ?_, ?_, ?_, ?_⟩
  · intro tyName hop; simp [step, hop, execInstr, h]
  · intro name hop; simp [step, hop, execInstr, h]
  · intro hop; simp [step, hop, execInstr, arithStep, h]
  · intro hop; simp [step, hop, execInstr, arithStep, h]
  · intro hop; simp [step, hop, execInstr, arithStep, h]
  · intro hop; simp [step, hop, execInstr, arithStep, h]
  · intro hop; simp [step, hop, execInstr, h]
  · intro hop; simp [step, hop, execInstr, h]

/-- Witness for C10 at concrete inputs: Cast on an empty stack is a
silent no-op, while Show and Add on the same empty stack fail with the
stack-underflow error. -/
theorem cast_empty_stack_noop_witness :
    step [OpCode.cast "Whole"] ⟨0, [], [], []⟩ = StepResult.next ⟨1, [], [], []⟩ ∧
    step [OpCode.show'] ⟨0, [], [], []⟩ = StepResult.fail "Stack underflow" ⟨0, [], [], []⟩ ∧
    step [OpCode.add] ⟨0, [], [], []⟩ = StepResult.fail "Stack underflow" ⟨0, [], [], []⟩ :=
  ⟨((cast_empty_stack_noop [OpCode.cast "Whole"] ⟨0, [], [], []⟩ rfl).1 "Whole" rfl).trans
      (by decide),
   (cast_empty_stack_noop [OpCode.show'] ⟨0, [], [], []⟩ rfl).2.2.2.2.2.2.2 rfl,
   (cast_empty_stack_noop [OpCode.add] ⟨0, [], [], []⟩ rfl).2.2.1 rfl⟩

end Vernacular
